import Mathlib

/-!
Verification development for the PyMOL KVFinder-web Tools plugin
(src/PyMOL-KVFinder-web-tools/__init__.py).

The development shallowly embeds the job-tracking core of the plugin:

* `Job` and its operations `Job.upload`, `Job.load`, `Job.save` (structured
  view of the TOML record file), `saveChunks` (byte-level view of the
  sequence of `f.write` calls in `Job.save`), `exportArtifacts`/`exportFs`
  (`Job.export`), and `checkOutputExists` (`Worker._check_output_exists`);
* the background poller `Worker.run` as a state-transition system:
  `processJob` (the per-id body of the check loop), `runPass` (one full
  pass over the discovered ids, lines 2948-3002 of the source), and
  `runWaitPhase` (the `while self.wait` idle-wait loop);
* `eraseJobDir` (`Worker.erase_job_dir`) over a small directory model.

External libraries of the original program (the `toml` package and the Qt
network layer) are modelled as components of an `Env` record of
uninterpreted functions (`parseReport`, `dumpReport`, `dumpSettings`,
`fetch`); everything the plugin itself computes is embedded concretely.
Python string operations (`os.path.join`, `os.path.basename`,
`str.replace`, `str.split`, `in`) are embedded by executable char-list
functions (`pathJoin`, `pyBasename`, `pyReplace`, `pySplit`,
`containsSub`) so that concrete runs evaluate inside the kernel.
-/

namespace KVFW

/-! ### Python-like string primitives -/

/-- Boolean list-prefix test used to embed Python substring scanning. -/
def chIsPref : List Char → List Char → Bool
  | [], _ => true
  | _ :: _, [] => false
  | a :: as, b :: bs => a = b && chIsPref as bs

/-- Left-to-right split on a non-overlapping pattern, fuel-structured so the
kernel can evaluate it; mirrors Python `str.split(pat)` for non-empty `pat`. -/
def chSplitGo (pat : List Char) : Nat → List Char → List Char → List (List Char)
  | 0, cur, s => [cur.reverse ++ s]
  | fuel + 1, cur, s =>
    if chIsPref pat s && !pat.isEmpty then
      cur.reverse :: chSplitGo pat fuel [] (s.drop pat.length)
    else
      match s with
      | [] => [cur.reverse]
      | c :: rest => chSplitGo pat fuel (c :: cur) rest

/-- Python `s.split(pat)`. -/
def pySplit (s pat : String) : List String :=
  (chSplitGo pat.data (s.data.length + 1) [] s.data).map (fun l => ⟨l⟩)

/-- Concatenation with separators, over char lists. -/
def chIntercalate (sep : List Char) : List (List Char) → List Char
  | [] => []
  | [x] => x
  | x :: y :: rest => x ++ sep ++ chIntercalate sep (y :: rest)

/-- Python `s.replace(pat, rep)` (all non-overlapping occurrences,
left to right). -/
def pyReplace (s pat rep : String) : String :=
  ⟨chIntercalate rep.data ((pySplit s pat).map (fun t => t.data))⟩

/-- Python `os.path.basename`: the component after the last slash. -/
def pyBasename (s : String) : String := (pySplit s "/").getLastD ""

/-- Python `pat in s` for non-empty `pat`. -/
def containsSub (s pat : String) : Bool := (pySplit s pat).length != 1

def strStartsWith (s pat : String) : Bool := chIsPref pat.data s.data

def strEndsWith (s pat : String) : Bool := chIsPref pat.data.reverse s.data.reverse

/-- Python `os.path.join(a, b)` for POSIX paths. -/
def pathJoin (a b : String) : String :=
  if strStartsWith b "/" then b
  else if a = "" then b
  else if strEndsWith a "/" then a ++ b
  else a ++ "/" ++ b

/-- Concatenation of a list of strings. -/
def strJoin : List String → String
  | [] => ""
  | s :: rest => s ++ strJoin rest

/-- Python f-string interpolation of an optional value (`None` prints as
`"None"`). -/
def optStr : Option String → String
  | none => "None"
  | some s => s

/-! ### File contents model

A file system is a partial map from path to content; `fsWrite` is
`open(path, "w")` followed by writing `content` (truncate-then-overwrite). -/

def Fs : Type := String → Option String

def fsWrite (p c : String) (fs : Fs) : Fs :=
  fun q => if q = p then some c else fs q

def fsWriteAll (ws : List (String × String)) (fs : Fs) : Fs :=
  ws.foldl (fun f pc => fsWrite pc.1 pc.2 f) fs

def fsExists (fs : Fs) (p : String) : Bool := (fs p).isSome

/-! ### Data model -/

/-- The `settings` table of a job (`self.input["settings"]`): six entries
whose values the poller treats as opaque; `none` is Python `None`
(a manually-added job). -/
structure SettingsF where
  modes : Option String
  step_size : Option String
  probes : Option String
  cutoffs : Option String
  visiblebox : Option String
  internalbox : Option String
deriving DecidableEq

/-- Structured view of a persisted `job.toml` record file as written by
`Job.save` and parsed back by `toml.load` in `Job.load`; the constant
`title` line is left implicit.  `id_added_manually` is `true` exactly when
`save` wrote the `id_added_manually = true` line (absent otherwise). -/
structure RecordFile where
  status : String
  id_added_manually : Bool
  pdb : Option String
  ligand : Option String
  output : String
  base_name : String
  settings : SettingsF
deriving DecidableEq

/-- The parameter dictionary consumed by `Job.upload` (either built by the
GUI or the parsed record file in `Job.load`). -/
structure Params where
  status : String
  id_added_manually : Option Bool
  pdb : Option String
  ligand : Option String
  output : String
  base_name : String
  modes : Option String
  step_size : Option String
  probes : Option String
  cutoffs : Option String
  visiblebox : Option String
  internalbox : Option String
deriving DecidableEq

/-- The `output` bundle of a completed job inside the service reply
(`reply["output"]`): cavity geometry, report text and log text. -/
structure OutBundle where
  pdb_kv : String
  report : String
  log : String
deriving DecidableEq

/-- A `GET /{id}` reply body: `{status, output?}`. -/
structure Reply where
  status : String
  output : Option OutBundle
deriving DecidableEq

/-- One tracked job (`class Job`).  `id` is assigned by the caller before
any operation that uses it (the poller sets `self.job_info.id = job_id`);
`settings` embeds `self.input["settings"]`. -/
structure Job where
  status : String
  pdb : Option String
  ligand : Option String
  output_directory : String
  base_name : String
  id_added_manually : Bool
  id : String
  settings : SettingsF
  output : Option Reply
deriving DecidableEq

/-- Parsed results report (`toml.loads(self.report)`): the three
`FILES_PATH` entries rewritten by `Job.export`, plus an opaque remainder
(the `PARAMETERS`/`RESULTS` sections). -/
structure ReportData where
  input_path : Option String
  ligand_path : Option String
  output_path : Option String
  rest : String
deriving DecidableEq

/-- Outcome of `fetch(id)` (`QNetworkReply.error()` as handled by
`Worker._handle_get_response`): success, `ContentNotFoundError`,
`ConnectionRefusedError`, or any other error code (for which the handler
has no branch and does nothing). -/
inductive FetchResult where
  | ok (reply : Reply)
  | notFound
  | connRefused
  | otherError
deriving DecidableEq

/-- Uninterpreted environment: the remote service and the `toml` library. -/
structure Env where
  fetch : String → FetchResult
  parseReport : String → ReportData
  dumpReport : ReportData → String
  dumpSettings : SettingsF → String

/-- `times_job_completed_no_checked` (source line 68). -/
def times_job_completed_no_checked : Nat := 500

/-! ### Job operations (`class Job`, source lines 2587-2877) -/

/-- `Job.upload` (lines 2673-2733) as run from `Job.__init__`: fills a job
from a parameter dictionary.  `pdb`/`ligand` are joined to
`output_directory` with a `.pdb` extension; `id_added_manually` is set
only when the key is present and truthy; the six settings entries are
copied into `self.input["settings"]`.  (The `cmd.save` side effects that
write structure files for PyMOL-loaded objects are outside the model.) -/
def Job.upload (p : Params) : Job where
  status := p.status
  pdb := p.pdb.map (fun n => pathJoin p.output (n ++ ".pdb"))
  ligand := p.ligand.map (fun n => pathJoin p.output (n ++ ".pdb"))
  output_directory := p.output
  base_name := p.base_name
  id_added_manually := p.id_added_manually.getD false
  id := ""
  settings :=
    { modes := p.modes, step_size := p.step_size, probes := p.probes,
      cutoffs := p.cutoffs, visiblebox := p.visiblebox,
      internalbox := p.internalbox }
  output := none

/-- The parameter dictionary `Job.load` (lines 2772-2813) builds from a
parsed record file: `pdb`/`ligand` are replaced by their basename with all
`.pdb` occurrences removed, and for a manually-added id the six settings
entries are overwritten with `None`. -/
def paramsOfRecord (rec : RecordFile) : Params where
  status := rec.status
  id_added_manually := if rec.id_added_manually then some true else none
  pdb := rec.pdb.map (fun p => pyReplace (pyBasename p) ".pdb" "")
  ligand := rec.ligand.map (fun p => pyReplace (pyBasename p) ".pdb" "")
  output := rec.output
  base_name := rec.base_name
  modes := if rec.id_added_manually then none else rec.settings.modes
  step_size := if rec.id_added_manually then none else rec.settings.step_size
  probes := if rec.id_added_manually then none else rec.settings.probes
  cutoffs := if rec.id_added_manually then none else rec.settings.cutoffs
  visiblebox := if rec.id_added_manually then none else rec.settings.visiblebox
  internalbox := if rec.id_added_manually then none else rec.settings.internalbox

/-- `Job.load` (lines 2772-2813): parse the record file and construct a job
through `cls(job_info)`, i.e. `Job.upload`. -/
def Job.load (rec : RecordFile) : Job := Job.upload (paramsOfRecord rec)

/-- `Job.save` (lines 2735-2770), structured view: the record file whose
TOML serialization `save` writes (status, optional
`id_added_manually = true` line, file references, settings dump).  The
`id` argument of the Python method only selects the directory and does not
appear in the file. -/
def Job.save (j : Job) : RecordFile where
  status := j.status
  id_added_manually := j.id_added_manually
  pdb := j.pdb
  ligand := j.ligand
  output := j.output_directory
  base_name := j.base_name
  settings := j.settings

/-- `Job.save` (lines 2755-2770), byte-level view: the successive chunks
passed to `f.write` on the file opened with mode `"w"` under the final
name `job.toml` (the settings dump `toml.dump(o=self.input["settings"],
f=f)` is one chunk through `env.dumpSettings`). -/
def saveChunks (env : Env) (j : Job) : List String :=
  ["# TOML configuration file for KVFinder-web job\n\n",
   "title = \"KVFinder-web job file\"\n\n",
   "status = \"" ++ j.status ++ "\"\n\n"]
  ++ (if j.id_added_manually then ["id_added_manually = true\n\n"] else [])
  ++ ["[files]\n"]
  ++ (match j.pdb with
      | some p => ["pdb = \"" ++ p ++ "\"\n"]
      | none => [])
  ++ (match j.ligand with
      | some l => ["ligand = \"" ++ l ++ "\"\n"]
      | none => [])
  ++ ["output = \"" ++ j.output_directory ++ "\"\n",
      "base_name = \"" ++ j.base_name ++ "\"\n",
      "\n",
      env.dumpSettings j.settings,
      "\n"]

/-- Content visible under `job.toml` after the first `k` writes of an
in-progress `Job.save` (the `open(job_fn, "w")` already truncated the
file). -/
def savePartial (env : Env) (j : Job) (k : Nat) : String :=
  strJoin ((saveChunks env j).take k)

/-- Content of `job.toml` after a completed `Job.save`. -/
def saveFull (env : Env) (j : Job) : String := strJoin (saveChunks env j)

/-- Artifact paths of `Job.export` / `Worker._check_output_exists`. -/
def Job.base_dir (j : Job) : String := pathJoin j.output_directory j.id

def Job.cavity_fn (j : Job) : String :=
  pathJoin j.base_dir (j.base_name ++ ".KVFinder.output.pdb")

def Job.report_fn (j : Job) : String :=
  pathJoin j.base_dir (j.base_name ++ ".KVFinder.results.toml")

def Job.log_fn (j : Job) : String := pathJoin j.base_dir "KVFinder.log"

def Job.parameters_fn (j : Job) : String :=
  pathJoin j.base_dir (j.base_name ++ "_parameters.toml")

/-- Log rewriting in `Job.export` (lines 2844-2854): service-internal
job-identifying lines are rewritten to the local id and `Dictionary:`
lines are dropped. -/
def processLog (log id : String) : String :=
  strJoin ((pySplit log "\n").map (fun line =>
    if containsSub line "Running parKVFinder for: " then
      "Running parKVFinder for job ID: " ++ id ++ "\n"
    else if containsSub line "Dictionary: " then ""
    else line ++ "\n"))

/-- Content of the submitted-parameters artifact (lines 2861-2877). -/
def parametersFileContent (env : Env) (j : Job) : String :=
  "# TOML configuration file for KVFinder-web job.\n\n"
  ++ "title = \"KVFinder-web parameters file\"\n\n"
  ++ "[files]\n"
  ++ "# The path of the input PDB file.\n"
  ++ "pdb = \"" ++ optStr j.pdb ++ "\"\n"
  ++ "# The path for the ligand\x27s PDB file.\n"
  ++ (match j.ligand with
      | some l => "ligand = \"" ++ l ++ "\"\n"
      | none => "ligand = \"-\"\n")
  ++ "\n"
  ++ "[settings]\n"
  ++ "# Settings for cavity detection.\n\n"
  ++ env.dumpSettings j.settings
  ++ "\n"

/-- Which of the four write blocks of `Job.export` produced an artifact. -/
inductive ArtifactKind where
  | cavity
  | report
  | log
  | parameters
deriving DecidableEq

/-- `Job.export` (lines 2815-2877) on a job whose `output` bundle is
present: the artifacts written, in source order, tagged by their write
block.  The parameters artifact is appended only when the job was not
manually added.  Returns `none` when `output` (or its `output` bundle) is
missing: there the Python method raises before completing any artifact. -/
def exportArtifacts (env : Env) (j : Job) :
    Option (List (ArtifactKind × String × String)) :=
  match j.output with
  | none => none
  | some r =>
    match r.output with
    | none => none
    | some b =>
      let rep0 := env.parseReport b.report
      let rep := { rep0 with input_path := j.pdb, ligand_path := j.ligand,
                             output_path := some j.cavity_fn }
      some ([(ArtifactKind.cavity, j.cavity_fn, b.pdb_kv),
             (ArtifactKind.report, j.report_fn,
              "# TOML results file for parKVFinder software\n\n"
              ++ env.dumpReport rep),
             (ArtifactKind.log, j.log_fn, processLog b.log j.id)]
        ++ (if j.id_added_manually then []
            else [(ArtifactKind.parameters, j.parameters_fn,
                   parametersFileContent env j)]))

/-- Effect of `Job.export` on the file system.  On the failing path
(`self.cavity` is `None` or the reply has no `output` bundle) the
`with open(cavity_fn, "w")` has already truncated the cavity file before
`f.write` raises, leaving it empty; the exception is caught by every
caller. -/
def exportFs (env : Env) (j : Job) (fs : Fs) : Fs :=
  match exportArtifacts env j with
  | some ws => fsWriteAll (ws.map (fun a => (a.2.1, a.2.2))) fs
  | none => fsWrite j.cavity_fn "" fs

/-- `Worker._check_output_exists` (lines 3133-3171): for a manually-added
job the `parameters` variable is `True` and `os.path.exists` of it (an
`int`-like argument) also yields `True`, so only the log, report and
cavity files are consulted. -/
def checkOutputExists (fs : Fs) (j : Job) : Bool :=
  (fsExists fs j.log_fn && fsExists fs j.report_fn && fsExists fs j.cavity_fn)
  && (if j.id_added_manually then true else fsExists fs j.parameters_fn)

/-! ### The Job store (`~/.KVFinder-web`): one record per id -/

def storeLookup (store : List (String × RecordFile)) (id : String) :
    Option RecordFile :=
  (store.find? (fun e => e.1 == id)).map (fun e => e.2)

/-- Writing `job.toml` inside the id's subdirectory (upsert). -/
def storeSave (store : List (String × RecordFile)) (id : String)
    (rec : RecordFile) : List (String × RecordFile) :=
  (id, rec) :: store.filter (fun e => e.1 != id)

/-- Removing the id's subdirectory. -/
def storeErase (store : List (String × RecordFile)) (id : String) :
    List (String × RecordFile) :=
  store.filter (fun e => e.1 != id)

/-- `_get_jobs()`: the ids present in the store. -/
def storeIds (store : List (String × RecordFile)) : List String :=
  store.map (fun e => e.1)

/-! ### The background poller (`Worker.run`, lines 2910-3041) -/

/-- Qt signals emitted by the worker thread. -/
inductive Event where
  | idSignal (id : String)
  | serverUp
  | serverDown
  | serverStatus (b : Bool)
  | availableJobs (ids : List String)
deriving DecidableEq

/-- A remote HTTP request issued by the worker. -/
inductive RemoteCall where
  | fetch (id : String)
  | probe
deriving DecidableEq

/-- Worker-loop state.  `calls` is a ghost trace of remote requests, each
tagged with the value of `self.wait` at the moment the request was
issued; `sleeps` counts the `time_wait_status` timer waits of the
idle-wait loop; `flag` is the per-pass local `flag` variable and
`counter` the cross-pass `counter` variable of `Worker.run`. -/
structure WState where
  store : List (String × RecordFile)
  fs : Fs
  wait : Bool
  flag : Bool
  counter : Nat
  sleeps : Nat
  events : List Event
  calls : List (RemoteCall × Bool)

/-- `Worker._handle_get_response` (lines 3071-3131), processing the reply
for the job `j` currently held in `self.job_info`:

* no error: store the reply, persist the record, export when completed
  (exceptions caught), emit `server_up`;
* `ContentNotFoundError`: emit `server_up`, set `self.wait`, emit
  `id_signal`, erase the record directory and emit the refreshed job list;
* `ConnectionRefusedError`: emit `server_down` only;
* any other error code: no branch, nothing happens. -/
def handleGetResponse (env : Env) (res : FetchResult) (st : WState) (j : Job) :
    WState :=
  match res with
  | .ok reply =>
    let j2 : Job := { j with output := some reply, status := reply.status }
    let st2 := { st with store := storeSave st.store j2.id (Job.save j2) }
    let st3 :=
      if j2.status = "completed" then { st2 with fs := exportFs env j2 st2.fs }
      else st2
    { st3 with events := st3.events ++ [Event.serverUp] }
  | .notFound =>
    let st2 := { st with events := st.events ++ [Event.serverUp], wait := true }
    let st3 := { st2 with events := st2.events ++ [Event.idSignal j.id] }
    let st4 := { st3 with store := storeErase st3.store j.id }
    { st4 with
      events := st4.events ++ [Event.availableJobs (storeIds st4.store)] }
  | .connRefused => { st with events := st.events ++ [Event.serverDown] }
  | .otherError => st

/-- `Worker._get_results` (lines 3042-3069) followed by the response
handler: issue `GET /{id}` (recorded with the current wait flag) and
process the reply.  The reply handler runs during the next Qt event loop
wait of `Worker.run`, before the next id is examined, which the model
renders as synchronous request/response. -/
def getResults (env : Env) (st : WState) (j : Job) : WState :=
  handleGetResponse env (env.fetch j.id)
    { st with calls := st.calls ++ [(RemoteCall.fetch j.id, st.wait)] } j

/-- The record as the poller loads it: `Job.load` followed by
`self.job_info.id = job_id`. -/
def loadedJob (rec : RecordFile) (jobId : String) : Job :=
  { Job.load rec with id := jobId }

/-- Body of the `for job_id in jobs` loop of `Worker.run`
(lines 2953-2992): load the record, then dispatch on its status.  A
queued/running job is fetched; a completed job is fetched when an expected
artifact is missing, and otherwise skip-validated — except that when
`counter` has reached `times_job_completed_no_checked` one fetch is forced
and `counter` resets to 0 — and `flag` is set for every completed job
whose artifacts were all present. -/
def processJob (env : Env) (st : WState) (jobId : String) : WState :=
  match storeLookup st.store jobId with
  | none => st
  | some rec =>
    let j : Job := loadedJob rec jobId
    if j.status = "queued" ∨ j.status = "running" then
      getResults env st j
    else if j.status = "completed" then
      if checkOutputExists st.fs j = false then
        getResults env st j
      else
        let st2 :=
          if st.counter = times_job_completed_no_checked then
            { getResults env st j with counter := 0 }
          else st
        { st2 with flag := true }
    else st

/-- One full pass of `Worker.run` over the discovered id list
(lines 2948-2997): reset the per-pass `flag`, process every id in order,
and finally increment `counter` when at least one completed job with all
artifacts present was seen. -/
def runPass (env : Env) (st : WState) (jobs : List String) : WState :=
  let st1 := { st with flag := false }
  let st2 := jobs.foldl (processJob env) st1
  if st2.flag then { st2 with counter := st2.counter + 1, flag := false }
  else st2

/-- The idle-wait loop `while self.wait` (lines 2933-2937).  `reads` is
the sequence of values of `self.wait` observed at successive loop checks
(the flag is cleared asynchronously by the GUI thread's acknowledgment
slot); each `true` read costs one `time_wait_status` timer wait and
nothing else — in particular no remote request and no store access. -/
def runWaitPhase (reads : List Bool) (st : WState) : WState :=
  match reads with
  | [] => st
  | b :: rest =>
    if b then runWaitPhase rest { st with sleeps := st.sleeps + 1 }
    else { st with wait := false }

/-- Number of leading `true` reads: the timer waits spent before the
idle-wait loop exits. -/
def leadingTrues : List Bool → Nat
  | [] => 0
  | b :: rest => if b then leadingTrues rest + 1 else 0

/-! ### `Worker.erase_job_dir` (lines 3187-3203) over a directory tree

Paths are component lists.  The Python code starts with `os.listdir(d)`,
which raises `FileNotFoundError` when `d` does not exist; on an existing
directory the recursion removes every file and subdirectory below `d` and
finally `os.rmdir(d)` removes `d` itself. -/

structure DirFS where
  files : List (List String)
  dirs : List (List String)
deriving DecidableEq

def eraseJobDir (fs : DirFS) (d : List String) : Except Unit DirFS :=
  if d ∈ fs.dirs then
    Except.ok
      { files := fs.files.filter (fun p => ! d.isPrefixOf p),
        dirs := fs.dirs.filter (fun p => ! d.isPrefixOf p) }
  else Except.error ()

/-! ### Concrete fixtures for witnesses and counterexamples -/

/-- Concrete opaque-library instantiation used by concrete runs. -/
def cEnvBase : Env where
  fetch := fun _ => FetchResult.otherError
  parseReport := fun s => { input_path := none, ligand_path := none,
                            output_path := none, rest := s }
  dumpReport := fun r => r.rest
  dumpSettings := fun _ => "settingsdump\n"

/-- Settings with all six entries present. -/
def sSome : SettingsF where
  modes := some "m"
  step_size := some "s"
  probes := some "p"
  cutoffs := some "c"
  visiblebox := some "v"
  internalbox := some "i"

/-- Settings of a manually-added job: all entries `None`. -/
def sNone : SettingsF where
  modes := none
  step_size := none
  probes := none
  cutoffs := none
  visiblebox := none
  internalbox := none

/-- A queued, form-created record. -/
def recQueued : RecordFile where
  status := "queued"
  id_added_manually := false
  pdb := some "/out/a.pdb"
  ligand := none
  output := "/out"
  base_name := "b"
  settings := sSome

/-- A completed, manually-added record. -/
def recDoneManual : RecordFile where
  status := "completed"
  id_added_manually := true
  pdb := none
  ligand := none
  output := "/o"
  base_name := "b"
  settings := sNone

/-- Environment whose service replies not-found for `"A"` and a completed
payload otherwise. -/
def cEnvNF : Env :=
  { cEnvBase with
    fetch := fun i =>
      if i = "A" then FetchResult.notFound
      else FetchResult.ok { status := "completed",
                            output := some { pdb_kv := "pk", report := "rp",
                                             log := "lg" } } }

/-- Environment whose service refuses the connection for `"A"` and answers
otherwise. -/
def cEnvCR : Env :=
  { cEnvBase with
    fetch := fun i =>
      if i = "A" then FetchResult.connRefused
      else FetchResult.ok { status := "completed",
                            output := some { pdb_kv := "pk", report := "rp",
                                             log := "lg" } } }

/-- Environment answering a completed payload for every id. -/
def cEnvOK : Env :=
  { cEnvBase with
    fetch := fun _ =>
      FetchResult.ok { status := "completed",
                       output := some { pdb_kv := "pk", report := "rp",
                                        log := "lg" } } }

/-- Empty file contents map. -/
def fsEmpty : Fs := fun _ => none

/-- File contents holding exactly the log, report and cavity artifacts of
the completed manual job `"J"` of `recDoneManual`. -/
def fsDoneJ : Fs := fun p =>
  if p = "/o/J/KVFinder.log" then some ""
  else if p = "/o/J/b.KVFinder.results.toml" then some ""
  else if p = "/o/J/b.KVFinder.output.pdb" then some ""
  else none

/-- Worker state tracking the queued jobs `"A"` and `"B"`. -/
def stAB : WState where
  store := [("A", recQueued), ("B", recQueued)]
  fs := fsEmpty
  wait := false
  flag := false
  counter := 0
  sleeps := 0
  events := []
  calls := []

/-- Worker state tracking the completed manual job `"J"` with all its
artifacts on disk and the re-validation counter at the forcing interval. -/
def stJ : WState where
  store := [("J", recDoneManual)]
  fs := fsDoneJ
  wait := false
  flag := false
  counter := times_job_completed_no_checked
  sleeps := 0
  events := []
  calls := []

/-- A completed, form-created job with its service output present. -/
def jDone4 : Job where
  status := "completed"
  pdb := some "/out/a.pdb"
  ligand := none
  output_directory := "/out"
  base_name := "b"
  id_added_manually := false
  id := "X"
  settings := sSome
  output := some { status := "completed",
                   output := some { pdb_kv := "pk", report := "rp",
                                    log := "lg" } }

/-- A completed, manually-added job with its service output present. -/
def jManual3 : Job := { jDone4 with id_added_manually := true, settings := sNone }

/-- The artifact list `Job.export` writes for `jManual3`. -/
def wsManual3 : List (ArtifactKind × String × String) :=
  (exportArtifacts cEnvBase jManual3).getD []

/-- The completed manual job `"J"` as the poller loads it. -/
def jManualJ : Job := loadedJob recDoneManual "J"

/-- `stJ` with the re-validation counter away from the forcing interval. -/
def stJ0 : WState := { stJ with counter := 0 }

/-- A job whose input structure path lies outside its output directory. -/
def jBadPdb : Job := { jDone4 with pdb := some "/tmp/a.pdb" }

/-- Directory model holding the job directory `x` with one file in it. -/
def dirFs1 : DirFS where
  files := [["x", "f"]]
  dirs := [["x"]]

/-- Recoverability of a stored structure path from its basename, relative
to the record's output directory: the composition applied by
`Job.load` followed by `Job.upload` returns the original path. -/
def pathRecoverable (outDir : String) : Option String → Bool
  | none => true
  | some p => pathJoin outDir (pyReplace (pyBasename p) ".pdb" "" ++ ".pdb") = p

/-- A completed record whose expected artifacts are all on disk: the
configuration under which the check loop skip-validates (or, at the
interval, force-fetches) the job and sets the per-pass `flag`. -/
def qualNow (st : WState) (k : String) : Prop :=
  ∃ rec, storeLookup st.store k = some rec ∧ rec.status = "completed" ∧
    checkOutputExists st.fs (loadedJob rec k) = true

/-! ## Lemmas about the file-contents model -/

theorem fsWrite_idem (p c : String) (fs : Fs) :
    fsWrite p c (fsWrite p c fs) = fsWrite p c fs := by
  funext q
  simp only [fsWrite]
  split <;> rfl

theorem fsWriteAll_point (ws : List (String × String)) (q : String) :
    (∀ fs : Fs, fsWriteAll ws fs q = fs q) ∨
      (∃ c, ∀ fs : Fs, fsWriteAll ws fs q = some c) := by
  induction ws with
  | nil => exact Or.inl (fun _ => rfl)
  | cons pc rest ih =>
    have hstep : ∀ fs : Fs,
        fsWriteAll (pc :: rest) fs = fsWriteAll rest (fsWrite pc.1 pc.2 fs) :=
      fun _ => rfl
    rcases ih with h | ⟨c, h⟩
    · by_cases hq : q = pc.1
      · refine Or.inr ⟨pc.2, fun fs => ?_⟩
        rw [hstep, h]
        simp [fsWrite, hq]
      · refine Or.inl (fun fs => ?_)
        rw [hstep, h]
        simp [fsWrite, hq]
    · exact Or.inr ⟨c, fun fs => by rw [hstep, h]⟩

theorem fsWriteAll_idem (ws : List (String × String)) (fs : Fs) :
    fsWriteAll ws (fsWriteAll ws fs) = fsWriteAll ws fs := by
  funext q
  rcases fsWriteAll_point ws q with h | ⟨c, h⟩
  · rw [h, h]
  · rw [h, h]

theorem exportFs_idem (env : Env) (j : Job) (fs : Fs) :
    exportFs env j (exportFs env j fs) = exportFs env j fs := by
  unfold exportFs
  cases exportArtifacts env j with
  | none => exact fsWrite_idem _ _ _
  | some ws => exact fsWriteAll_idem _ _

theorem fsExists_write_mono (p q c : String) (fs : Fs)
    (h : fsExists fs p = true) : fsExists (fsWrite q c fs) p = true := by
  simp only [fsExists, fsWrite] at *
  split <;> simp_all

theorem fsExists_writeAll_mono (ws : List (String × String)) (p : String)
    (fs : Fs) (h : fsExists fs p = true) : fsExists (fsWriteAll ws fs) p = true := by
  induction ws generalizing fs with
  | nil => exact h
  | cons pc rest ih => exact ih _ (fsExists_write_mono _ _ _ _ h)

theorem fsExists_exportFs_mono (env : Env) (j : Job) (p : String) (fs : Fs)
    (h : fsExists fs p = true) : fsExists (exportFs env j fs) p = true := by
  unfold exportFs
  cases exportArtifacts env j with
  | none => exact fsExists_write_mono _ _ _ _ h
  | some ws => exact fsExists_writeAll_mono _ _ _ h

/-! ## Claims C4, C9, C10: export and the output-existence check -/

/-- C4: for every completed job record with non-null output, export is
idempotent on the file contents — running `Job.export` a second time with
the same `output` overwrites the same three-or-four artifact files with
byte-identical content. -/
theorem claim_C4_export_idempotent (env : Env) (j : Job) (fs : Fs)
    (r : Reply) (b : OutBundle) (_hst : j.status = "completed")
    (ho : j.output = some r) (hb : r.output = some b) :
    exportFs env j (exportFs env j fs) = exportFs env j fs ∧
    ((exportArtifacts env j).getD []).length =
      (if j.id_added_manually then 3 else 4) := by
  refine ⟨exportFs_idem env j fs, ?_⟩
  simp only [exportArtifacts, ho, hb]
  cases h : j.id_added_manually <;> simp [h]

/-- Witness for C4 at a concrete completed job. -/
theorem claim_C4_witness :
    (jDone4.status = "completed" ∧
     jDone4.output = some { status := "completed",
                            output := some { pdb_kv := "pk", report := "rp",
                                             log := "lg" } }) ∧
    (exportFs cEnvBase jDone4 (exportFs cEnvBase jDone4 fsEmpty) =
       exportFs cEnvBase jDone4 fsEmpty ∧
     ((exportArtifacts cEnvBase jDone4).getD []).length =
       (if jDone4.id_added_manually then 3 else 4)) :=
  ⟨⟨rfl, rfl⟩,
   claim_C4_export_idempotent cEnvBase jDone4 fsEmpty _ _ rfl rfl rfl⟩

/-- C9: a manually-added job never produces a parameters-file artifact on
export; the parameters artifact is written exactly when the job was not
manually added. -/
theorem claim_C9_parameters_artifact (env : Env) (j : Job)
    (ws : List (ArtifactKind × String × String))
    (hw : exportArtifacts env j = some ws) :
    (ArtifactKind.parameters ∈ ws.map (fun a => a.1)) ↔
      j.id_added_manually = false := by
  cases ho : j.output with
  | none =>
    simp only [exportArtifacts, ho] at hw
    exact absurd hw (by simp)
  | some r =>
    cases hb : r.output with
    | none =>
      simp only [exportArtifacts, ho, hb] at hw
      exact absurd hw (by simp)
    | some b =>
      simp only [exportArtifacts, ho, hb, Option.some.injEq] at hw
      subst hw
      cases h : j.id_added_manually <;> simp [h]

/-- Witness for C9 at a concrete manually-added job. -/
theorem claim_C9_witness :
    exportArtifacts cEnvBase jManual3 = some wsManual3 ∧
    ((ArtifactKind.parameters ∈ wsManual3.map (fun a => a.1)) ↔
      jManual3.id_added_manually = false) :=
  ⟨rfl, claim_C9_parameters_artifact cEnvBase jManual3 wsManual3 rfl⟩

theorem loadedJob_status (rec : RecordFile) (i : String) :
    (loadedJob rec i).status = rec.status := rfl

theorem loadedJob_id (rec : RecordFile) (i : String) :
    (loadedJob rec i).id = i := rfl

/-- A completed record whose artifacts all exist is skip-validated when the
re-validation counter is away from the forcing interval: the whole step
only sets the per-pass `flag`. -/
theorem processJob_skip (env : Env) (st : WState) (k : String)
    (rec : RecordFile) (hrec : storeLookup st.store k = some rec)
    (hcomp : rec.status = "completed")
    (hex : checkOutputExists st.fs (loadedJob rec k) = true)
    (hcnt : st.counter ≠ times_job_completed_no_checked) :
    processJob env st k = { st with flag := true } := by
  unfold processJob
  rw [hrec]
  simp only []
  have h1 : ¬ ((loadedJob rec k).status = "queued" ∨
      (loadedJob rec k).status = "running") := by
    rw [loadedJob_status, hcomp]
    decide
  have h2 : (loadedJob rec k).status = "completed" := by
    rw [loadedJob_status, hcomp]
  have h3 : ¬ (checkOutputExists st.fs (loadedJob rec k) = false) := by
    rw [hex]
    decide
  rw [if_neg h1, if_pos h2, if_neg h3]
  rw [if_neg hcnt]

/-- C10: for a manually-added job, the output-existence check consults only
the log, report and cavity files (its value is determined by those three
paths, and equals their conjunction of existence); and for a completed
manually-added job whose three files exist, the poller issues no remote
call outside the forced re-validation interval, so the absent parameters
file never triggers a re-fetch. -/
theorem claim_C10_check_manual (fs fs2 : Fs) (j : Job)
    (hm : j.id_added_manually = true) :
    (checkOutputExists fs j =
       (fsExists fs j.log_fn && fsExists fs j.report_fn &&
        fsExists fs j.cavity_fn)) ∧
    (fs j.log_fn = fs2 j.log_fn → fs j.report_fn = fs2 j.report_fn →
     fs j.cavity_fn = fs2 j.cavity_fn →
     checkOutputExists fs j = checkOutputExists fs2 j) ∧
    (∀ (env : Env) (st : WState) (k : String) (rec : RecordFile),
       storeLookup st.store k = some rec →
       rec.status = "completed" →
       checkOutputExists st.fs (loadedJob rec k) = true →
       st.counter ≠ times_job_completed_no_checked →
       (processJob env st k).calls = st.calls) := by
  refine ⟨?_, ?_, ?_⟩
  · simp [checkOutputExists, hm]
  · intro h1 h2 h3
    simp [checkOutputExists, fsExists, h1, h2, h3, hm]
  · intro env st k rec hrec hcomp hex hcnt
    rw [processJob_skip env st k rec hrec hcomp hex hcnt]

/-- Witness for C10 at the concrete manual job `"J"`. -/
theorem claim_C10_witness :
    jManualJ.id_added_manually = true ∧
    (checkOutputExists fsDoneJ jManualJ =
       (fsExists fsDoneJ jManualJ.log_fn && fsExists fsDoneJ jManualJ.report_fn &&
        fsExists fsDoneJ jManualJ.cavity_fn)) ∧
    (processJob cEnvOK stJ0 "J").calls = stJ0.calls :=
  ⟨by decide,
   (claim_C10_check_manual fsDoneJ fsEmpty jManualJ (by decide)).1,
   (claim_C10_check_manual fsDoneJ fsEmpty jManualJ (by decide)).2.2 cEnvOK stJ0 "J"
     recDoneManual (by decide) (by decide) (by decide) (by decide)⟩

/-! ## Claim C5: save/load round-trip -/

/-- C5 counterexample: a record whose input structure path lies outside its
output directory is not round-tripped — `Job.load` rebases the path under
the output directory, so the second save differs from the first. -/
theorem claim_C5_counterexample :
    Job.save (Job.load (Job.save jBadPdb)) ≠ Job.save jBadPdb := by decide

/-- C5 (amended): the round-trip `save(load(save(record))) = save(record)`
holds for records whose `pdb`/`ligand` paths are recoverable from their
basenames relative to the record's output directory (as is the case for
every record the plugin itself creates from simple structure names), and
whose settings are all `None` when the id was added manually; a record
whose structure path lies outside the output directory (or whose name
embeds `.pdb`) breaks the round-trip. -/
theorem claim_C5_roundtrip_amended (j : Job)
    (hp : pathRecoverable j.output_directory j.pdb = true)
    (hl : pathRecoverable j.output_directory j.ligand = true)
    (hm : j.id_added_manually = true → j.settings = sNone) :
    Job.save (Job.load (Job.save j)) = Job.save j := by
  cases hman : j.id_added_manually <;>
    cases hpdb : j.pdb <;> cases hlig : j.ligand <;>
      simp_all [Job.save, Job.load, Job.upload, paramsOfRecord,
        pathRecoverable, sNone]

/-- Witness for C5 at a concrete recoverable record. -/
theorem claim_C5_witness :
    (pathRecoverable jDone4.output_directory jDone4.pdb = true ∧
     pathRecoverable jDone4.output_directory jDone4.ligand = true ∧
     (jDone4.id_added_manually = true → jDone4.settings = sNone)) ∧
    Job.save (Job.load (Job.save jDone4)) = Job.save jDone4 :=
  ⟨⟨by decide, by decide, by decide⟩,
   claim_C5_roundtrip_amended jDone4 (by decide) (by decide) (by decide)⟩

/-! ## Claim C6: atomicity of save -/

theorem strData_append (a b : String) : (a ++ b).data = a.data ++ b.data := by
  cases a
  cases b
  rfl

theorem strJoin_data (l : List String) :
    (strJoin l).data = (l.map String.data).flatten := by
  induction l with
  | nil => rfl
  | cons s rest ih => simp [strJoin, strData_append, ih]

theorem strJoin_take_drop (l : List String) (k : Nat) :
    strJoin (l.take k) ++ strJoin (l.drop k) = strJoin l := by
  apply String.ext
  rw [strData_append, strJoin_data, strJoin_data, strJoin_data,
    List.map_take, List.map_drop, ← List.flatten_append, List.take_append_drop]

/-- C6 counterexample: `Job.save` writes through the final name — after the
first of its several writes the file already exists under `job.toml` with
a nonempty content that is not the full serialization, so a save
interrupted there leaves a half-written file visible. -/
theorem claim_C6_counterexample :
    savePartial cEnvBase jDone4 1 ≠ "" ∧
    savePartial cEnvBase jDone4 1 ≠ saveFull cEnvBase jDone4 ∧
    1 < (saveChunks cEnvBase jDone4).length := by decide

/-- C6 (amended): `Job.save` is not atomic — it opens the final record file
with mode `"w"` (truncating it) and appends chunk by chunk, so the content
visible under the final name after `k` writes is exactly the
concatenation of the first `k` chunks, a prefix of the full serialization;
only the completed sequence of writes yields the full file. -/
theorem claim_C6_save_prefix_amended (env : Env) (j : Job) (k : Nat) :
    (∃ t, savePartial env j k ++ t = saveFull env j) ∧
    savePartial env j (saveChunks env j).length = saveFull env j := by
  constructor
  · exact ⟨strJoin ((saveChunks env j).drop k), strJoin_take_drop _ _⟩
  · unfold savePartial saveFull
    rw [List.take_length]

/-- Witness for C6 (amended) at a concrete job and step count. -/
theorem claim_C6_witness :
    (∃ t, savePartial cEnvBase jDone4 1 ++ t = saveFull cEnvBase jDone4) ∧
    savePartial cEnvBase jDone4 (saveChunks cEnvBase jDone4).length =
      saveFull cEnvBase jDone4 :=
  claim_C6_save_prefix_amended cEnvBase jDone4 1

/-! ## Claim C7: erase of a job directory -/

theorem isPrefixOf_self (l : List String) : l.isPrefixOf l = true := by
  induction l with
  | nil => rfl
  | cons a t ih => simp [List.isPrefixOf, ih]

/-- C7 counterexample: erasing an id whose record subdirectory does not
exist raises (`os.listdir` fails with `FileNotFoundError`) instead of
completing without error. -/
theorem claim_C7_counterexample :
    ["x"] ∉ (DirFS.mk [] []).dirs ∧
    eraseJobDir (DirFS.mk [] []) ["x"] = Except.error () := by
  exact ⟨by decide, rfl⟩

/-- C7 (amended): `erase_job_dir` is not idempotent — on a missing
directory it raises `FileNotFoundError` (the poller's call site wraps it
in `try/except`); on an existing directory it removes the directory and
everything below it. -/
theorem claim_C7_erase_amended (fs : DirFS) (d : List String) :
    (d ∉ fs.dirs → eraseJobDir fs d = Except.error ()) ∧
    (d ∈ fs.dirs →
      ∃ fs2, eraseJobDir fs d = Except.ok fs2 ∧
        d ∉ fs2.dirs ∧
        (∀ p ∈ fs2.files, ¬ d.isPrefixOf p = true) ∧
        (∀ p ∈ fs2.dirs, ¬ d.isPrefixOf p = true)) := by
  constructor
  · intro h
    unfold eraseJobDir
    rw [if_neg h]
  · intro h
    have he : eraseJobDir fs d =
        Except.ok
          { files := fs.files.filter (fun p => ! d.isPrefixOf p),
            dirs := fs.dirs.filter (fun p => ! d.isPrefixOf p) } := by
      unfold eraseJobDir
      rw [if_pos h]
    refine ⟨_, he, ?_, ?_, ?_⟩
    · intro hd
      have hpred := List.of_mem_filter hd
      simp [isPrefixOf_self] at hpred
    · intro p hp
      have hpred := List.of_mem_filter hp
      simp at hpred
      simp [hpred]
    · intro p hp
      have hpred := List.of_mem_filter hp
      simp at hpred
      simp [hpred]

/-- Witness for C7: erase errors on a missing directory and removes an
existing directory recursively. -/
theorem claim_C7_witness :
    (eraseJobDir dirFs1 ["y"] = Except.error ()) ∧
    (∃ fs2, eraseJobDir dirFs1 ["x"] = Except.ok fs2 ∧
       ["x"] ∉ fs2.dirs ∧
       (∀ p ∈ fs2.files, ¬ (["x"] : List String).isPrefixOf p = true) ∧
       (∀ p ∈ fs2.dirs, ¬ (["x"] : List String).isPrefixOf p = true)) :=
  ⟨(claim_C7_erase_amended dirFs1 ["y"]).1 (by decide),
   (claim_C7_erase_amended dirFs1 ["x"]).2 (by decide)⟩

/-! ## Lemmas about the Job store -/

theorem find?_filter_ne (l : List (String × RecordFile)) (i k : String)
    (h : i ≠ k) :
    (l.filter (fun e => e.1 != k)).find? (fun e => e.1 == i) =
      l.find? (fun e => e.1 == i) := by
  induction l with
  | nil => rfl
  | cons a t ih =>
    by_cases hak : a.1 = k
    · have h1 : (a.1 != k) = false := by simp [hak]
      have h2 : (a.1 == i) = false := by
        simp only [beq_eq_false_iff_ne, ne_eq, hak]
        exact fun he => h he.symm
      simp [List.filter_cons, h1, List.find?_cons, h2, ih]
    · have h1 : (a.1 != k) = true := by simp [hak]
      by_cases hai : a.1 = i
      · simp [List.filter_cons, h1, List.find?_cons, hai, h]
      · have h2 : (a.1 == i) = false := by simp [hai]
        simp [List.filter_cons, h1, List.find?_cons, h2, ih]

theorem storeLookup_save_ne (s : List (String × RecordFile)) (k : String)
    (rec : RecordFile) (i : String) (h : i ≠ k) :
    storeLookup (storeSave s k rec) i = storeLookup s i := by
  unfold storeLookup storeSave
  have hk : ((k, rec).1 == i) = false := by
    simp only [beq_eq_false_iff_ne, ne_eq]
    exact fun he => h he.symm
  rw [List.find?_cons, hk]
  rw [find?_filter_ne s i k h]

theorem storeLookup_erase_ne (s : List (String × RecordFile)) (k i : String)
    (h : i ≠ k) : storeLookup (storeErase s k) i = storeLookup s i := by
  unfold storeLookup storeErase
  rw [find?_filter_ne s i k h]

theorem storeIds_erase_not_mem (s : List (String × RecordFile)) (k : String) :
    k ∉ storeIds (storeErase s k) := by
  unfold storeIds storeErase
  intro h
  simp only [List.mem_map, List.mem_filter] at h
  obtain ⟨e, ⟨_, hne⟩, he⟩ := h
  simp [he] at hne

theorem storeIds_erase_subset (s : List (String × RecordFile)) (k i : String)
    (h : i ∉ storeIds s) : i ∉ storeIds (storeErase s k) := by
  unfold storeIds storeErase at *
  intro hmem
  simp only [List.mem_map, List.mem_filter] at hmem
  obtain ⟨e, ⟨hes, _⟩, he⟩ := hmem
  exact h (List.mem_map.mpr ⟨e, hes, he⟩)

theorem storeIds_save_not_mem (s : List (String × RecordFile)) (k : String)
    (rec : RecordFile) (i : String) (h1 : i ≠ k) (h2 : i ∉ storeIds s) :
    i ∉ storeIds (storeSave s k rec) := by
  unfold storeIds storeSave at *
  intro hmem
  simp only [List.map_cons, List.mem_cons, List.mem_map, List.mem_filter] at hmem
  rcases hmem with hk | ⟨e, ⟨hes, _⟩, he⟩
  · exact h1 hk
  · exact h2 (List.mem_map.mpr ⟨e, hes, he⟩)

/-! ## Lemmas about the response handler and `_get_results` -/

theorem hgr_calls (env : Env) (res : FetchResult) (st : WState) (j : Job) :
    (handleGetResponse env res st j).calls = st.calls := by
  cases res <;> simp [handleGetResponse, apply_ite WState.calls]

theorem hgr_counter (env : Env) (res : FetchResult) (st : WState) (j : Job) :
    (handleGetResponse env res st j).counter = st.counter := by
  cases res <;> simp [handleGetResponse, apply_ite WState.counter]

theorem hgr_flag (env : Env) (res : FetchResult) (st : WState) (j : Job) :
    (handleGetResponse env res st j).flag = st.flag := by
  cases res <;> simp [handleGetResponse, apply_ite WState.flag]

theorem hgr_store_ne (env : Env) (res : FetchResult) (st : WState) (j : Job)
    (i : String) (h : i ≠ j.id) :
    storeLookup (handleGetResponse env res st j).store i =
      storeLookup st.store i := by
  cases res with
  | ok r =>
    simp [handleGetResponse, apply_ite WState.store,
      storeLookup_save_ne st.store j.id _ i h]
  | notFound => simp [handleGetResponse, storeLookup_erase_ne st.store j.id i h]
  | connRefused => rfl
  | otherError => rfl

theorem hgr_ids_not_mem (env : Env) (res : FetchResult) (st : WState) (j : Job)
    (i : String) (h : i ≠ j.id) (hm : i ∉ storeIds st.store) :
    i ∉ storeIds (handleGetResponse env res st j).store := by
  cases res with
  | ok r =>
    simp only [handleGetResponse, apply_ite WState.store, ite_self]
    exact storeIds_save_not_mem st.store j.id _ i h hm
  | notFound =>
    simp only [handleGetResponse]
    exact storeIds_erase_subset st.store j.id i hm
  | connRefused => exact hm
  | otherError => exact hm

theorem hgr_count_ne (env : Env) (res : FetchResult) (st : WState) (j : Job)
    (i : String) (h : i ≠ j.id) :
    (handleGetResponse env res st j).events.count (Event.idSignal i) =
      st.events.count (Event.idSignal i) := by
  have hne : ¬ j.id = i := fun he => h he.symm
  cases res <;>
    simp [handleGetResponse, apply_ite WState.events, List.count_append,
      List.count_cons, Event.idSignal.injEq, hne]

theorem hgr_events_mono (env : Env) (res : FetchResult) (st : WState) (j : Job)
    (e : Event) (h : e ∈ st.events) :
    e ∈ (handleGetResponse env res st j).events := by
  cases res <;>
    simp [handleGetResponse, apply_ite WState.events, List.mem_append] <;>
    tauto

theorem hgr_fs_mono (env : Env) (res : FetchResult) (st : WState) (j : Job)
    (p : String) (h : fsExists st.fs p = true) :
    fsExists (handleGetResponse env res st j).fs p = true := by
  cases res with
  | ok r =>
    simp only [handleGetResponse, apply_ite WState.fs]
    split
    · exact fsExists_exportFs_mono env _ p st.fs h
    · exact h
  | notFound => exact h
  | connRefused => exact h
  | otherError => exact h

theorem hgr_notFound_ids (env : Env) (st : WState) (j : Job) :
    j.id ∉ storeIds (handleGetResponse env FetchResult.notFound st j).store := by
  simp only [handleGetResponse]
  exact storeIds_erase_not_mem st.store j.id

theorem hgr_notFound_count (env : Env) (st : WState) (j : Job) :
    (handleGetResponse env FetchResult.notFound st j).events.count
        (Event.idSignal j.id) =
      st.events.count (Event.idSignal j.id) + 1 := by
  simp [handleGetResponse, List.count_append, List.count_cons]

theorem hgr_connRefused_down (env : Env) (st : WState) (j : Job) :
    Event.serverDown ∈
      (handleGetResponse env FetchResult.connRefused st j).events := by
  simp [handleGetResponse, List.mem_append]

theorem gr_calls (env : Env) (st : WState) (j : Job) :
    (getResults env st j).calls = st.calls ++ [(RemoteCall.fetch j.id, st.wait)] := by
  unfold getResults
  rw [hgr_calls]

theorem gr_counter (env : Env) (st : WState) (j : Job) :
    (getResults env st j).counter = st.counter := by
  unfold getResults
  rw [hgr_counter]

theorem gr_flag (env : Env) (st : WState) (j : Job) :
    (getResults env st j).flag = st.flag := by
  unfold getResults
  rw [hgr_flag]

theorem gr_store_ne (env : Env) (st : WState) (j : Job) (i : String)
    (h : i ≠ j.id) :
    storeLookup (getResults env st j).store i = storeLookup st.store i := by
  unfold getResults
  rw [hgr_store_ne _ _ _ _ _ h]

theorem gr_ids_not_mem (env : Env) (st : WState) (j : Job) (i : String)
    (h : i ≠ j.id) (hm : i ∉ storeIds st.store) :
    i ∉ storeIds (getResults env st j).store := by
  unfold getResults
  exact hgr_ids_not_mem _ _ _ _ _ h hm

theorem gr_count_ne (env : Env) (st : WState) (j : Job) (i : String)
    (h : i ≠ j.id) :
    (getResults env st j).events.count (Event.idSignal i) =
      st.events.count (Event.idSignal i) := by
  unfold getResults
  rw [hgr_count_ne _ _ _ _ _ h]

theorem gr_events_mono (env : Env) (st : WState) (j : Job) (e : Event)
    (h : e ∈ st.events) : e ∈ (getResults env st j).events := by
  unfold getResults
  exact hgr_events_mono _ _ _ _ _ h

theorem gr_fs_mono (env : Env) (st : WState) (j : Job) (p : String)
    (h : fsExists st.fs p = true) :
    fsExists (getResults env st j).fs p = true := by
  unfold getResults
  exact hgr_fs_mono _ _ _ _ _ h

theorem gr_notFound_ids (env : Env) (st : WState) (j : Job)
    (hf : env.fetch j.id = FetchResult.notFound) :
    j.id ∉ storeIds (getResults env st j).store := by
  unfold getResults
  rw [hf]
  exact hgr_notFound_ids _ _ _

theorem gr_notFound_count (env : Env) (st : WState) (j : Job)
    (hf : env.fetch j.id = FetchResult.notFound) :
    (getResults env st j).events.count (Event.idSignal j.id) =
      st.events.count (Event.idSignal j.id) + 1 := by
  unfold getResults
  rw [hf]
  exact hgr_notFound_count _ _ _

theorem gr_connRefused_down (env : Env) (st : WState) (j : Job)
    (hf : env.fetch j.id = FetchResult.connRefused) :
    Event.serverDown ∈ (getResults env st j).events := by
  unfold getResults
  rw [hf]
  exact hgr_connRefused_down _ _ _

/-! ## Lemmas about one step of the check loop (`processJob`) -/

/-- Exhaustive case analysis of one `processJob` step: nothing happens
(record unavailable, or an unknown status), a fetch (queued/running,
or completed with a missing artifact, or the forced re-validation which
additionally resets `counter` and sets `flag`), or skip-validation (only
`flag` is set). -/
theorem processJob_cases (env : Env) (st : WState) (k : String) :
    processJob env st k = st ∨
    (∃ rec, storeLookup st.store k = some rec ∧
      processJob env st k = getResults env st (loadedJob rec k)) ∨
    (∃ rec, storeLookup st.store k = some rec ∧
      rec.status = "completed" ∧
      checkOutputExists st.fs (loadedJob rec k) = true ∧
      st.counter = times_job_completed_no_checked ∧
      processJob env st k =
        { getResults env st (loadedJob rec k) with counter := 0, flag := true }) ∨
    processJob env st k = { st with flag := true } := by
  unfold processJob
  cases hrec : storeLookup st.store k with
  | none => exact Or.inl rfl
  | some rec =>
    simp only []
    split_ifs with h1 h2 h3 h4
    · exact Or.inr (Or.inl ⟨rec, rfl, rfl⟩)
    · exact Or.inr (Or.inl ⟨rec, rfl, rfl⟩)
    · refine Or.inr (Or.inr (Or.inl ⟨rec, rfl, ?_, ?_, h4, rfl⟩))
      · exact (loadedJob_status rec k).symm.trans h2
      · cases hce : checkOutputExists st.fs (loadedJob rec k)
        · exact absurd hce h3
        · rfl
    · exact Or.inr (Or.inr (Or.inr rfl))
    · exact Or.inl rfl

/-- A queued or running record is always fetched. -/
theorem processJob_qr (env : Env) (st : WState) (k : String)
    (rec : RecordFile) (hrec : storeLookup st.store k = some rec)
    (hqr : rec.status = "queued" ∨ rec.status = "running") :
    processJob env st k = getResults env st (loadedJob rec k) := by
  unfold processJob
  rw [hrec]
  simp only []
  have hc : (loadedJob rec k).status = "queued" ∨
      (loadedJob rec k).status = "running" := by
    rw [loadedJob_status]
    exact hqr
  rw [if_pos hc]

/-- The forced re-validation: a completed record with all artifacts present
is fetched when `counter` sits at the interval, and `counter` resets. -/
theorem processJob_forced (env : Env) (st : WState) (k : String)
    (rec : RecordFile) (hrec : storeLookup st.store k = some rec)
    (hcomp : rec.status = "completed")
    (hex : checkOutputExists st.fs (loadedJob rec k) = true)
    (hcnt : st.counter = times_job_completed_no_checked) :
    processJob env st k =
      { getResults env st (loadedJob rec k) with counter := 0, flag := true } := by
  unfold processJob
  rw [hrec]
  simp only []
  have h1 : ¬ ((loadedJob rec k).status = "queued" ∨
      (loadedJob rec k).status = "running") := by
    rw [loadedJob_status, hcomp]
    decide
  have h2 : (loadedJob rec k).status = "completed" := by
    rw [loadedJob_status, hcomp]
  have h3 : ¬ (checkOutputExists st.fs (loadedJob rec k) = false) := by
    rw [hex]
    decide
  rw [if_neg h1, if_pos h2, if_neg h3, if_pos hcnt]

theorem pj_calls (env : Env) (st : WState) (k : String) :
    (processJob env st k).calls = st.calls ∨
    (processJob env st k).calls = st.calls ++ [(RemoteCall.fetch k, st.wait)] := by
  rcases processJob_cases env st k with h | ⟨rec, _, h⟩ | ⟨rec, _, _, _, _, h⟩ | h <;>
    rw [h]
  · exact Or.inl rfl
  · rw [gr_calls, loadedJob_id]
    exact Or.inr rfl
  · show (getResults env st (loadedJob rec k)).calls = _ ∨
      (getResults env st (loadedJob rec k)).calls = _
    rw [gr_calls, loadedJob_id]
    exact Or.inr rfl
  · exact Or.inl rfl

theorem pj_calls_mono (env : Env) (st : WState) (k : String)
    (c : RemoteCall × Bool) (h : c ∈ st.calls) :
    c ∈ (processJob env st k).calls := by
  rcases pj_calls env st k with hc | hc <;> rw [hc]
  · exact h
  · exact List.mem_append_left _ h

theorem pj_calls_sub (env : Env) (st : WState) (k : String)
    (c : RemoteCall × Bool) (h : c ∈ (processJob env st k).calls) :
    c ∈ st.calls ∨ c = (RemoteCall.fetch k, st.wait) := by
  rcases pj_calls env st k with hc | hc <;> rw [hc] at h
  · exact Or.inl h
  · rcases List.mem_append.mp h with h1 | h1
    · exact Or.inl h1
    · exact Or.inr (List.mem_singleton.mp h1)

theorem pj_counter (env : Env) (st : WState) (k : String) :
    (processJob env st k).counter = st.counter ∨
    (st.counter = times_job_completed_no_checked ∧
      (processJob env st k).counter = 0) := by
  rcases processJob_cases env st k with h | ⟨rec, _, h⟩ | ⟨rec, _, _, _, hcnt, h⟩ | h <;>
    rw [h]
  · exact Or.inl rfl
  · exact Or.inl (gr_counter _ _ _)
  · exact Or.inr ⟨hcnt, rfl⟩
  · exact Or.inl rfl

theorem pj_flag_mono (env : Env) (st : WState) (k : String)
    (h : st.flag = true) : (processJob env st k).flag = true := by
  rcases processJob_cases env st k with hc | ⟨rec, _, hc⟩ | ⟨rec, _, _, _, _, hc⟩ | hc <;>
    rw [hc]
  · exact h
  · rw [gr_flag]
    exact h

theorem pj_store_ne (env : Env) (st : WState) (k i : String) (h : i ≠ k) :
    storeLookup (processJob env st k).store i = storeLookup st.store i := by
  rcases processJob_cases env st k with hc | ⟨rec, _, hc⟩ | ⟨rec, _, _, _, _, hc⟩ | hc <;>
    rw [hc]
  · rw [gr_store_ne]
    rw [loadedJob_id]
    exact h
  · show storeLookup (getResults env st (loadedJob rec k)).store i = _
    rw [gr_store_ne]
    rw [loadedJob_id]
    exact h

theorem pj_ids_not_mem (env : Env) (st : WState) (k i : String) (h : i ≠ k)
    (hm : i ∉ storeIds st.store) :
    i ∉ storeIds (processJob env st k).store := by
  rcases processJob_cases env st k with hc | ⟨rec, _, hc⟩ | ⟨rec, _, _, _, _, hc⟩ | hc <;>
    rw [hc]
  · exact hm
  · exact gr_ids_not_mem env st _ i (by rw [loadedJob_id]; exact h) hm
  · exact gr_ids_not_mem env st _ i (by rw [loadedJob_id]; exact h) hm
  · exact hm

theorem pj_count_ne (env : Env) (st : WState) (k i : String) (h : i ≠ k) :
    (processJob env st k).events.count (Event.idSignal i) =
      st.events.count (Event.idSignal i) := by
  rcases processJob_cases env st k with hc | ⟨rec, _, hc⟩ | ⟨rec, _, _, _, _, hc⟩ | hc <;>
    rw [hc]
  · rw [gr_count_ne]
    rw [loadedJob_id]
    exact h
  · show (getResults env st (loadedJob rec k)).events.count _ = _
    rw [gr_count_ne]
    rw [loadedJob_id]
    exact h

theorem pj_events_mono (env : Env) (st : WState) (k : String) (e : Event)
    (h : e ∈ st.events) : e ∈ (processJob env st k).events := by
  rcases processJob_cases env st k with hc | ⟨rec, _, hc⟩ | ⟨rec, _, _, _, _, hc⟩ | hc <;>
    rw [hc]
  · exact h
  · exact gr_events_mono _ _ _ _ h
  · exact gr_events_mono _ _ _ _ h
  · exact h

theorem pj_fs_mono (env : Env) (st : WState) (k : String) (p : String)
    (h : fsExists st.fs p = true) :
    fsExists (processJob env st k).fs p = true := by
  rcases processJob_cases env st k with hc | ⟨rec, _, hc⟩ | ⟨rec, _, _, _, _, hc⟩ | hc <;>
    rw [hc]
  · exact h
  · exact gr_fs_mono _ _ _ _ h
  · exact gr_fs_mono _ _ _ _ h
  · exact h

/-- When the fetch of `k` answers not-found and the step did issue a call,
the record of `k` is gone and exactly one `id_signal` for `k` was
emitted. -/
theorem pj_notFound_good (env : Env) (st : WState) (k : String)
    (hf : env.fetch k = FetchResult.notFound)
    (hch : (processJob env st k).calls ≠ st.calls) :
    k ∉ storeIds (processJob env st k).store ∧
    (processJob env st k).events.count (Event.idSignal k) =
      st.events.count (Event.idSignal k) + 1 := by
  have hfj : ∀ rec, env.fetch (loadedJob rec k).id = FetchResult.notFound := by
    intro rec
    rw [loadedJob_id]
    exact hf
  rcases processJob_cases env st k with hc | ⟨rec, _, hc⟩ | ⟨rec, _, _, _, _, hc⟩ | hc
  · rw [hc] at hch
    exact absurd rfl hch
  · rw [hc]
    have h1 := gr_notFound_ids env st (loadedJob rec k) (hfj rec)
    rw [loadedJob_id] at h1
    have h2 := gr_notFound_count env st (loadedJob rec k) (hfj rec)
    rw [loadedJob_id] at h2
    exact ⟨h1, h2⟩
  · rw [hc]
    have h1 := gr_notFound_ids env st (loadedJob rec k) (hfj rec)
    rw [loadedJob_id] at h1
    have h2 := gr_notFound_count env st (loadedJob rec k) (hfj rec)
    rw [loadedJob_id] at h2
    exact ⟨h1, h2⟩
  · rw [hc] at hch
    exact absurd rfl hch

theorem checkOutputExists_mono (fs fs2 : Fs) (j : Job)
    (hm : ∀ p, fsExists fs p = true → fsExists fs2 p = true)
    (h : checkOutputExists fs j = true) : checkOutputExists fs2 j = true := by
  unfold checkOutputExists at *
  simp only [Bool.and_eq_true] at *
  obtain ⟨⟨⟨h1, h2⟩, h3⟩, h4⟩ := h
  refine ⟨⟨⟨hm _ h1, hm _ h2⟩, hm _ h3⟩, ?_⟩
  by_cases hman : j.id_added_manually = true <;> simp [hman] at h4 ⊢
  exact hm _ h4

theorem pj_qual_flag (env : Env) (st : WState) (k : String)
    (h : qualNow st k) : (processJob env st k).flag = true := by
  obtain ⟨rec, hrec, hcomp, hex⟩ := h
  by_cases hcnt : st.counter = times_job_completed_no_checked
  · rw [processJob_forced env st k rec hrec hcomp hex hcnt]
  · rw [processJob_skip env st k rec hrec hcomp hex hcnt]

theorem pj_qual_counter_reset (env : Env) (st : WState) (k : String)
    (h : qualNow st k) (hcnt : st.counter = times_job_completed_no_checked) :
    (processJob env st k).counter = 0 := by
  obtain ⟨rec, hrec, hcomp, hex⟩ := h
  rw [processJob_forced env st k rec hrec hcomp hex hcnt]

theorem pj_nonqual_counter (env : Env) (st : WState) (k : String)
    (h : ¬ qualNow st k) : (processJob env st k).counter = st.counter := by
  rcases processJob_cases env st k with hc | ⟨rec, _, hc⟩ | ⟨rec, hrec, hcomp, hex, _, _⟩ | hc
  · rw [hc]
  · rw [hc, gr_counter]
  · exact absurd ⟨rec, hrec, hcomp, hex⟩ h
  · rw [hc]

theorem pj_qual_preserved (env : Env) (st : WState) (k i : String)
    (hne : i ≠ k) (h : qualNow st i) : qualNow (processJob env st k) i := by
  obtain ⟨rec, hrec, hcomp, hex⟩ := h
  refine ⟨rec, ?_, hcomp, ?_⟩
  · rw [pj_store_ne env st k i hne]
    exact hrec
  · exact checkOutputExists_mono st.fs _ _ (fun p => pj_fs_mono env st k p) hex

/-! ## Lemmas about a full pass (`runPass` as a fold of `processJob`) -/

theorem fold_calls_mono (env : Env) (l : List String) (st : WState)
    (c : RemoteCall × Bool) (h : c ∈ st.calls) :
    c ∈ (l.foldl (processJob env) st).calls := by
  induction l generalizing st with
  | nil => exact h
  | cons j rest ih => exact ih _ (pj_calls_mono _ _ _ _ h)

theorem fold_calls_mono_map (env : Env) (l : List String) (st : WState)
    (r : RemoteCall) (h : r ∈ st.calls.map Prod.fst) :
    r ∈ (l.foldl (processJob env) st).calls.map Prod.fst := by
  rcases List.mem_map.mp h with ⟨c, hc, he⟩
  exact List.mem_map.mpr ⟨c, fold_calls_mono env l st c hc, he⟩

theorem fold_calls_fetch_ne (env : Env) (l : List String) (st : WState)
    (i : String) (hne : ∀ k ∈ l, k ≠ i)
    (h : RemoteCall.fetch i ∈ (l.foldl (processJob env) st).calls.map Prod.fst) :
    RemoteCall.fetch i ∈ st.calls.map Prod.fst := by
  induction l generalizing st with
  | nil => exact h
  | cons j rest ih =>
    have h2 := ih (processJob env st j)
      (fun k hk => hne k (List.mem_cons_of_mem _ hk)) h
    rcases List.mem_map.mp h2 with ⟨c, hc, hc1⟩
    rcases pj_calls_sub env st j c hc with hcs | hcs
    · exact List.mem_map.mpr ⟨c, hcs, hc1⟩
    · exfalso
      rw [hcs] at hc1
      simp only [RemoteCall.fetch.injEq] at hc1
      exact hne j (List.mem_cons_self _ _) hc1

theorem fold_store_ne (env : Env) (l : List String) (st : WState) (i : String)
    (hne : ∀ k ∈ l, k ≠ i) :
    storeLookup (l.foldl (processJob env) st).store i = storeLookup st.store i := by
  induction l generalizing st with
  | nil => rfl
  | cons j rest ih =>
    rw [List.foldl_cons, ih _ (fun k hk => hne k (List.mem_cons_of_mem _ hk))]
    exact pj_store_ne env st j i (Ne.symm (hne j (List.mem_cons_self _ _)))

theorem fold_ids_not_mem (env : Env) (l : List String) (st : WState)
    (i : String) (hne : ∀ k ∈ l, k ≠ i) (hm : i ∉ storeIds st.store) :
    i ∉ storeIds (l.foldl (processJob env) st).store := by
  induction l generalizing st with
  | nil => exact hm
  | cons j rest ih =>
    exact ih _ (fun k hk => hne k (List.mem_cons_of_mem _ hk))
      (pj_ids_not_mem env st j i (Ne.symm (hne j (List.mem_cons_self _ _))) hm)

theorem fold_count_ne (env : Env) (l : List String) (st : WState) (i : String)
    (hne : ∀ k ∈ l, k ≠ i) :
    (l.foldl (processJob env) st).events.count (Event.idSignal i) =
      st.events.count (Event.idSignal i) := by
  induction l generalizing st with
  | nil => rfl
  | cons j rest ih =>
    rw [List.foldl_cons, ih _ (fun k hk => hne k (List.mem_cons_of_mem _ hk))]
    exact pj_count_ne env st j i (Ne.symm (hne j (List.mem_cons_self _ _)))

theorem fold_events_mono (env : Env) (l : List String) (st : WState)
    (e : Event) (h : e ∈ st.events) :
    e ∈ (l.foldl (processJob env) st).events := by
  induction l generalizing st with
  | nil => exact h
  | cons j rest ih => exact ih _ (pj_events_mono _ _ _ _ h)

theorem fold_flag_mono (env : Env) (l : List String) (st : WState)
    (h : st.flag = true) : (l.foldl (processJob env) st).flag = true := by
  induction l generalizing st with
  | nil => exact h
  | cons j rest ih => exact ih _ (pj_flag_mono _ _ _ h)

theorem fold_counter_of_ne (env : Env) (l : List String) (st : WState)
    (h : st.counter ≠ times_job_completed_no_checked) :
    (l.foldl (processJob env) st).counter = st.counter := by
  induction l generalizing st with
  | nil => rfl
  | cons j rest ih =>
    rcases pj_counter env st j with hc | ⟨hN, _⟩
    · rw [List.foldl_cons, ih _ (by rw [hc]; exact h), hc]
    · exact absurd hN h

theorem fold_qr_fetch (env : Env) (l : List String) (st : WState)
    (hnd : l.Nodup) (i : String) (rec : RecordFile) (hi : i ∈ l)
    (hrec : storeLookup st.store i = some rec)
    (hqr : rec.status = "queued" ∨ rec.status = "running") :
    RemoteCall.fetch i ∈ (l.foldl (processJob env) st).calls.map Prod.fst := by
  induction l generalizing st with
  | nil => cases hi
  | cons j rest ih =>
    rcases List.mem_cons.mp hi with he | hmem
    · subst he
      rw [List.foldl_cons, processJob_qr env st i rec hrec hqr]
      refine fold_calls_mono_map env rest _ _ ?_
      rw [gr_calls, loadedJob_id]
      simp
    · have hij : i ≠ j := by
        intro he
        subst he
        exact (List.nodup_cons.mp hnd).1 hmem
      rw [List.foldl_cons]
      refine ih _ (List.nodup_cons.mp hnd).2 hmem ?_
      rw [pj_store_ne env st j i hij]
      exact hrec

theorem fold_qual_flag (env : Env) (l : List String) (st : WState)
    (i : String) (hi : i ∈ l) (hq : qualNow st i) :
    (l.foldl (processJob env) st).flag = true := by
  induction l generalizing st with
  | nil => cases hi
  | cons j rest ih =>
    by_cases hqj : qualNow st j
    · exact fold_flag_mono env rest _ (pj_qual_flag env st j hqj)
    · have hij : i ≠ j := fun he => hqj (he ▸ hq)
      rcases List.mem_cons.mp hi with he | hmem
      · exact absurd he hij
      · exact ih _ hmem (pj_qual_preserved env st j i hij hq)

theorem fold_forced (env : Env) (l : List String) (st : WState)
    (hnd : l.Nodup)
    (hN : st.counter = times_job_completed_no_checked)
    (hq : ∃ i ∈ l, qualNow st i) :
    (l.foldl (processJob env) st).counter = 0 ∧
    (l.foldl (processJob env) st).flag = true := by
  induction l generalizing st with
  | nil =>
    obtain ⟨i, hi, _⟩ := hq
    cases hi
  | cons j rest ih =>
    by_cases hqj : qualNow st j
    · constructor
      · rw [List.foldl_cons, fold_counter_of_ne env rest _
          (by rw [pj_qual_counter_reset env st j hqj hN]; decide)]
        exact pj_qual_counter_reset env st j hqj hN
      · exact fold_flag_mono env rest _ (pj_qual_flag env st j hqj)
    · obtain ⟨i, hi, hqi⟩ := hq
      have hij : i ≠ j := fun he => hqj (he ▸ hqi)
      have hmem : i ∈ rest := by
        rcases List.mem_cons.mp hi with he | hm
        · exact absurd he hij
        · exact hm
      refine ih _ (List.nodup_cons.mp hnd).2 ?_
        ⟨i, hmem, pj_qual_preserved env st j i hij hqi⟩
      rw [pj_nonqual_counter env st j hqj]
      exact hN

/-! ## Projections of `runPass` through its end-of-pass counter update -/

theorem runPass_calls (env : Env) (st : WState) (jobs : List String) :
    (runPass env st jobs).calls =
      (jobs.foldl (processJob env) { st with flag := false }).calls := by
  unfold runPass
  by_cases h : (jobs.foldl (processJob env) { st with flag := false }).flag = true <;>
    simp [h]

theorem runPass_events (env : Env) (st : WState) (jobs : List String) :
    (runPass env st jobs).events =
      (jobs.foldl (processJob env) { st with flag := false }).events := by
  unfold runPass
  by_cases h : (jobs.foldl (processJob env) { st with flag := false }).flag = true <;>
    simp [h]

theorem runPass_store (env : Env) (st : WState) (jobs : List String) :
    (runPass env st jobs).store =
      (jobs.foldl (processJob env) { st with flag := false }).store := by
  unfold runPass
  by_cases h : (jobs.foldl (processJob env) { st with flag := false }).flag = true <;>
    simp [h]

theorem runPass_counter_flag (env : Env) (st : WState) (jobs : List String)
    (hf : (jobs.foldl (processJob env) { st with flag := false }).flag = true) :
    (runPass env st jobs).counter =
      (jobs.foldl (processJob env) { st with flag := false }).counter + 1 := by
  unfold runPass
  simp [hf]

/-! ## Claim C1: server-side expiry (not-found) reconciliation -/

/-- C1: whenever a pass fetches an id and the service answers not-found
(and the ghost call trace did not already hold a fetch of that id), the
record of that id is absent from the Job store after the pass and exactly
one `id_signal` notification carrying that id was emitted during the
pass. -/
theorem claim_C1_not_found_reconciliation (env : Env) (st : WState)
    (jobs : List String) (id : String) (hnd : jobs.Nodup)
    (hnf : env.fetch id = FetchResult.notFound)
    (hcall : RemoteCall.fetch id ∈ (runPass env st jobs).calls.map Prod.fst)
    (hfresh : RemoteCall.fetch id ∉ st.calls.map Prod.fst) :
    id ∉ storeIds (runPass env st jobs).store ∧
    (runPass env st jobs).events.count (Event.idSignal id) =
      st.events.count (Event.idSignal id) + 1 := by
  by_cases hmem : id ∈ jobs
  · obtain ⟨l1, l2, rfl⟩ := List.append_of_mem hmem
    have hdis := List.nodup_append.mp hnd
    have hid1 : id ∉ l1 := fun h => hdis.2.2 h (List.mem_cons_self _ _)
    have hid2 : id ∉ l2 := (List.nodup_cons.mp hdis.2.1).1
    have hne1 : ∀ k ∈ l1, k ≠ id := fun k hk he => hid1 (he ▸ hk)
    have hne2 : ∀ k ∈ l2, k ≠ id := fun k hk he => hid2 (he ▸ hk)
    have hfold : (l1 ++ id :: l2).foldl (processJob env) { st with flag := false } =
        l2.foldl (processJob env)
          (processJob env (l1.foldl (processJob env) { st with flag := false }) id) := by
      rw [List.foldl_append, List.foldl_cons]
    rw [runPass_calls, hfold] at hcall
    have hB := fold_calls_fetch_ne env l2 _ id hne2 hcall
    have hA_not : RemoteCall.fetch id ∉
        (l1.foldl (processJob env) { st with flag := false }).calls.map Prod.fst :=
      fun h => hfresh (fold_calls_fetch_ne env l1 { st with flag := false } id hne1 h)
    have hch : (processJob env (l1.foldl (processJob env) { st with flag := false }) id).calls ≠
        (l1.foldl (processJob env) { st with flag := false }).calls := by
      intro he
      rw [he] at hB
      exact hA_not hB
    have hgood := pj_notFound_good env _ id hnf hch
    constructor
    · rw [runPass_store, hfold]
      exact fold_ids_not_mem env l2 _ id hne2 hgood.1
    · rw [runPass_events, hfold, fold_count_ne env l2 _ id hne2, hgood.2,
        fold_count_ne env l1 _ id hne1]
  · exfalso
    rw [runPass_calls] at hcall
    exact hfresh (fold_calls_fetch_ne env jobs { st with flag := false } id
      (fun k hk he => hmem (he ▸ hk)) hcall)

/-- Witness for C1: one pass over the queued jobs `A`, `B` where the
service expired `A`. -/
theorem claim_C1_witness :
    ((["A", "B"] : List String).Nodup ∧
     cEnvNF.fetch "A" = FetchResult.notFound ∧
     RemoteCall.fetch "A" ∈ (runPass cEnvNF stAB ["A", "B"]).calls.map Prod.fst ∧
     RemoteCall.fetch "A" ∉ stAB.calls.map Prod.fst) ∧
    ("A" ∉ storeIds (runPass cEnvNF stAB ["A", "B"]).store ∧
     (runPass cEnvNF stAB ["A", "B"]).events.count (Event.idSignal "A") =
       stAB.events.count (Event.idSignal "A") + 1) :=
  ⟨⟨by decide, by decide, by decide, by decide⟩,
   claim_C1_not_found_reconciliation cEnvNF stAB ["A", "B"] "A"
     (by decide) (by decide) (by decide) (by decide)⟩

/-! ## Claim C2: the wait flag and remote calls -/

/-- C2 counterexample: with `A` and `B` queued and the service answering
not-found for `A`, the pass fetches `B` while the wait flag is already
set (the flag was raised by `A`'s not-found handler mid-pass), so it is
not the case that the poller issues zero remote calls while the wait flag
is set. -/
theorem claim_C2_counterexample :
    stAB.wait = false ∧
    (RemoteCall.fetch "B", true) ∈ (runPass cEnvNF stAB ["A", "B"]).calls := by
  decide

/-- C2 (amended): the idle-wait loop itself performs no I/O — it issues no
remote call, emits no event, touches no record, and spends exactly one
`time_wait_status` interval per `true` read of the wait flag, so polling
resumes at the first check after the flag clears, within one interval;
however, when the flag becomes set in the middle of a pass (by the
not-found handler), fetches for the remaining ids of that pass are still
issued while the flag is set. -/
theorem claim_C2_wait_amended :
    (∀ (reads : List Bool) (st : WState),
       (runWaitPhase reads st).calls = st.calls ∧
       (runWaitPhase reads st).events = st.events ∧
       (runWaitPhase reads st).store = st.store ∧
       (runWaitPhase reads st).sleeps = st.sleeps + leadingTrues reads) ∧
    (∃ (env : Env) (st : WState) (jobs : List String) (c : RemoteCall × Bool),
       c ∈ (runPass env st jobs).calls ∧ c.2 = true) := by
  constructor
  · intro reads
    induction reads with
    | nil => exact fun st => ⟨rfl, rfl, rfl, rfl⟩
    | cons b rest ih =>
      intro st
      cases b with
      | false => exact ⟨rfl, rfl, rfl, by simp [runWaitPhase, leadingTrues]⟩
      | true =>
        obtain ⟨h1, h2, h3, h4⟩ := ih { st with sleeps := st.sleeps + 1 }
        refine ⟨h1, h2, h3, ?_⟩
        show (runWaitPhase rest { st with sleeps := st.sleeps + 1 }).sleeps = _
        rw [h4]
        simp [leadingTrues]
        omega
  · exact ⟨cEnvNF, stAB, ["A", "B"], (RemoteCall.fetch "B", true), by decide, rfl⟩

/-! ## Claim C3: the re-validation counter -/

/-- C3 counterexample: a pass in which a forced re-validation occurred (the
completed job `J` with all artifacts present was fetched because the
counter sat at the interval) ends with the counter equal to 1, not 0 —
the per-pass `flag` is set even for the force-fetched job, so the final
`counter += 1` runs after the reset. -/
theorem claim_C3_counterexample :
    stJ.counter = times_job_completed_no_checked ∧
    checkOutputExists stJ.fs (loadedJob recDoneManual "J") = true ∧
    RemoteCall.fetch "J" ∈ (runPass cEnvOK stJ ["J"]).calls.map Prod.fst ∧
    (runPass cEnvOK stJ ["J"]).counter ≠ 0 := by
  decide

/-- C3 (amended): the counter increments by exactly one at the end of every
pass that processed at least one completed job with all artifacts present
(whether skip-validated or force-fetched, since `flag` is set in both
cases); in a pass where the counter sits at the re-validation interval,
the forced fetch resets it to zero mid-pass and the end-of-pass increment
then leaves it at one — not zero. -/
theorem claim_C3_counter_amended (env : Env) (st : WState) (jobs : List String)
    (k : String) (rec : RecordFile) (hnd : jobs.Nodup) (hmem : k ∈ jobs)
    (hrec : storeLookup st.store k = some rec)
    (hcomp : rec.status = "completed")
    (hex : checkOutputExists st.fs (loadedJob rec k) = true) :
    (st.counter ≠ times_job_completed_no_checked →
       (runPass env st jobs).counter = st.counter + 1) ∧
    (st.counter = times_job_completed_no_checked →
       (runPass env st jobs).counter = 1) := by
  have hq : qualNow { st with flag := false } k := ⟨rec, hrec, hcomp, hex⟩
  constructor
  · intro hne
    have hflag := fold_qual_flag env jobs { st with flag := false } k hmem hq
    rw [runPass_counter_flag env st jobs hflag,
      fold_counter_of_ne env jobs { st with flag := false } hne]
  · intro hN
    obtain ⟨hc0, hflag⟩ :=
      fold_forced env jobs { st with flag := false } hnd hN ⟨k, hmem, hq⟩
    rw [runPass_counter_flag env st jobs hflag, hc0]

/-- Witness for C3 (amended) at the forced-re-validation pass over `J`. -/
theorem claim_C3_witness :
    ((["J"] : List String).Nodup ∧
     storeLookup stJ.store "J" = some recDoneManual ∧
     recDoneManual.status = "completed" ∧
     checkOutputExists stJ.fs (loadedJob recDoneManual "J") = true ∧
     stJ.counter = times_job_completed_no_checked) ∧
    (runPass cEnvOK stJ ["J"]).counter = 1 :=
  ⟨⟨by decide, by decide, by decide, by decide, by decide⟩,
   (claim_C3_counter_amended cEnvOK stJ ["J"] "J" recDoneManual
     (by decide) (by decide) (by decide) (by decide) (by decide)).2 (by decide)⟩

/-! ## Claim C8: connection refused during a pass -/

/-- C8 counterexample: with `A` and `B` queued and the service refusing the
connection for `A`, the pass emits the service-down notification but
still issues the fetch for the remaining id `B` — the loop has no
short-circuit on `ConnectionRefusedError`. -/
theorem claim_C8_counterexample :
    cEnvCR.fetch "A" = FetchResult.connRefused ∧
    Event.serverDown ∈ (runPass cEnvCR stAB ["A", "B"]).events ∧
    RemoteCall.fetch "B" ∈ (runPass cEnvCR stAB ["A", "B"]).calls.map Prod.fst := by
  decide

/-- C8 (amended): when the fetch of a queued/running id fails with
connection-refused, the poller emits a service-down notification — but it
does not skip the remaining ids: every queued/running id of the pass
still gets its fetch issued. -/
theorem claim_C8_conn_refused_amended (env : Env) (st : WState)
    (jobs : List String) (id : String) (rec : RecordFile) (hnd : jobs.Nodup)
    (hmem : id ∈ jobs) (hrec : storeLookup st.store id = some rec)
    (hqr : rec.status = "queued" ∨ rec.status = "running")
    (hcr : env.fetch id = FetchResult.connRefused) :
    Event.serverDown ∈ (runPass env st jobs).events ∧
    (∀ k rk, k ∈ jobs → storeLookup st.store k = some rk →
      (rk.status = "queued" ∨ rk.status = "running") →
      RemoteCall.fetch k ∈ (runPass env st jobs).calls.map Prod.fst) := by
  constructor
  · obtain ⟨l1, l2, rfl⟩ := List.append_of_mem hmem
    have hdis := List.nodup_append.mp hnd
    have hid1 : id ∉ l1 := fun h => hdis.2.2 h (List.mem_cons_self _ _)
    have hne1 : ∀ k ∈ l1, k ≠ id := fun k hk he => hid1 (he ▸ hk)
    have hfold : (l1 ++ id :: l2).foldl (processJob env) { st with flag := false } =
        l2.foldl (processJob env)
          (processJob env (l1.foldl (processJob env) { st with flag := false }) id) := by
      rw [List.foldl_append, List.foldl_cons]
    rw [runPass_events, hfold]
    have hrecA : storeLookup
        (l1.foldl (processJob env) { st with flag := false }).store id = some rec := by
      rw [fold_store_ne env l1 _ id hne1]
      exact hrec
    refine fold_events_mono env l2 _ _ ?_
    rw [processJob_qr env _ id rec hrecA hqr]
    exact gr_connRefused_down env _ (loadedJob rec id)
      (by rw [loadedJob_id]; exact hcr)
  · intro k rk hk hrk hqrk
    rw [runPass_calls]
    exact fold_qr_fetch env jobs { st with flag := false } hnd k rk hk hrk hqrk

/-- Witness for C8 (amended): the refused pass over `A`, `B`. -/
theorem claim_C8_witness :
    ((["A", "B"] : List String).Nodup ∧
     storeLookup stAB.store "A" = some recQueued ∧
     (recQueued.status = "queued" ∨ recQueued.status = "running") ∧
     cEnvCR.fetch "A" = FetchResult.connRefused) ∧
    (Event.serverDown ∈ (runPass cEnvCR stAB ["A", "B"]).events ∧
     RemoteCall.fetch "B" ∈ (runPass cEnvCR stAB ["A", "B"]).calls.map Prod.fst) :=
  ⟨⟨by decide, by decide, by decide, by decide⟩,
   (claim_C8_conn_refused_amended cEnvCR stAB ["A", "B"] "A" recQueued
     (by decide) (by decide) (by decide) (by decide) (by decide)).1,
   (claim_C8_conn_refused_amended cEnvCR stAB ["A", "B"] "A" recQueued
     (by decide) (by decide) (by decide) (by decide) (by decide)).2 "B" recQueued
     (by decide) (by decide) (by decide)⟩

end KVFW
